import Mathlib

/-!
Verification development for the order repository of `chi-api`
(`repository/order`, file `src/unnamed/part_000`): a Redis-backed Order
store with a primary record per order (`order:<id>` -> serialized Order)
and a secondary index set `orders` holding every primary key.

The embedding models a healthy sequential Redis store: no transport
failures, no concurrency.  Serialized bytes are abstracted as a JSON
value AST (`Jval`); `json.Marshal`/`json.Unmarshal` of `model.Order`
become `encodeOrder`/`decodeOrder` over this AST.  Each go-redis command
is a pure function on the store state, returning exactly what the
go-redis v9 client returns on a healthy store:

* `SetNX`/`SetXX` are `BoolCmd`s; go-redis converts a Nil reply of
  `SET .. NX`/`SET .. XX` into `(false, nil error)`, so their `Err()` is
  nil whether or not the conditional write applied.
* `Del` returns the deleted-key count with a nil error; it never yields
  `redis.Nil`.
* `Get` yields `redis.Nil` exactly when the key is absent.
* `TxPipeline()` in `Insert` and `DeleteByID` never has a command queued
  on it (every command in the source is issued on `r.Client` directly),
  so `txn.Exec` commits an empty pipeline: it returns a nil error and
  has no effect on the store.
-/

namespace ChiApi

/-- Modelled from the spec: a line-item record of an Order
(`model.LineItem` is not under src/); at minimum an item identifier and
a quantity. -/
structure LineItem where
  ItemID : String
  Quantity : Nat
deriving DecidableEq, Repr

/-- Modelled from the spec: the persisted Order entity (`model.Order` is
not under src/): caller-assigned unsigned 64-bit `OrderID`, opaque
UUID-shaped `CustomerID`, ordered `LineItems`, nullable `CreatedAt`
timestamp (kept opaque as a string). -/
structure Order where
  OrderID : Nat
  CustomerID : String
  LineItems : List LineItem
  CreatedAt : Option String
deriving DecidableEq, Repr

/-- A JSON value AST, abstracting the serialized bytes stored in Redis. -/
inductive Jval where
  | null
  | num (n : Nat)
  | str (s : String)
  | arr (xs : List Jval)
  | obj (fs : List (String × Jval))

/-- Modelled from the spec: the field-tagged encoding of a line item
(the JSON codec of `model.LineItem` is not under src/). -/
def encodeLineItem (li : LineItem) : Jval :=
  .obj [("item", .str li.ItemID), ("quantity", .num li.Quantity)]

/-- Modelled from the spec: inverse of `encodeLineItem`; fails on any
other shape. -/
def decodeLineItem : Jval → Option LineItem
  | .obj [("item", .str i), ("quantity", .num q)] => some ⟨i, q⟩
  | _ => none

/-- Modelled from the spec: the nullable timestamp encodes as JSON null
or a string. -/
def encodeCreatedAt : Option String → Jval
  | none => .null
  | some t => .str t

/-- Modelled from the spec: inverse of `encodeCreatedAt`. -/
def decodeCreatedAt : Jval → Option (Option String)
  | .null => some none
  | .str t => some (some t)
  | _ => none

/-- Decode a list of line items, failing if any element fails. -/
def decodeLineItems : List Jval → Option (List LineItem)
  | [] => some []
  | x :: xs =>
    match decodeLineItem x, decodeLineItems xs with
    | some li, some lis => some (li :: lis)
    | _, _ => none

/-- Modelled from the spec: `json.Marshal` of a `model.Order` — a
self-describing, field-tagged encoding preserving all fields including
the nullable timestamp. -/
def encodeOrder (o : Order) : Jval :=
  .obj [("order_id", .num o.OrderID), ("customer_id", .str o.CustomerID),
        ("line_items", .arr (o.LineItems.map encodeLineItem)),
        ("created_at", encodeCreatedAt o.CreatedAt)]

/-- Modelled from the spec: `json.Unmarshal` into a `model.Order`;
fails (`CorruptRecord`) on bytes that are not a valid serialized Order. -/
def decodeOrder : Jval → Option Order
  | .obj [("order_id", .num id), ("customer_id", .str c),
          ("line_items", .arr xs), ("created_at", ca)] =>
    match decodeLineItems xs, decodeCreatedAt ca with
    | some lis, some t => some ⟨id, c, lis, t⟩
    | _, _ => none
  | _ => none

/-- Lookup in an association list of string keys (the Redis keyspace). -/
def kvLookup : List (String × Jval) → String → Option Jval
  | [], _ => none
  | (k, v) :: rest, key => if k = key then some v else kvLookup rest key

/-- Remove every binding of a key (Redis `DEL`). -/
def kvRemove : List (String × Jval) → String → List (String × Jval)
  | [], _ => []
  | (k, v) :: rest, key =>
    if k = key then kvRemove rest key else (k, v) :: kvRemove rest key

/-- Replace the value bound to a key (the applying branch of `SET .. XX`). -/
def kvReplace : List (String × Jval) → String → Jval → List (String × Jval)
  | [], _, _ => []
  | (k, w) :: rest, key, v =>
    if k = key then (key, v) :: kvReplace rest key v
    else (k, w) :: kvReplace rest key v

/-- Remove every occurrence of a member from the set (Redis `SREM`). -/
def setRemove : List String → String → List String
  | [], _ => []
  | x :: xs, m => if x = m then setRemove xs m else x :: setRemove xs m

/-- The Redis store state the repository touches: the string keyspace
holding the primary records, and the members of the `orders` index set. -/
structure RedisState where
  kv : List (String × Jval)
  orders : List String

/-- The empty store. -/
def emptyState : RedisState := ⟨[], []⟩

/-- `GET key`: the value, or `redis.Nil` (here `none`) when absent. -/
def getCmd (s : RedisState) (key : String) : Option Jval :=
  kvLookup s.kv key

/-- `SET key v NX`: writes only when the key is absent; the returned
Bool is the go-redis `BoolCmd` value (its `Err()` is nil either way). -/
def setNXCmd (s : RedisState) (key : String) (v : Jval) : RedisState × Bool :=
  match kvLookup s.kv key with
  | some _ => (s, false)
  | none => ({ s with kv := s.kv ++ [(key, v)] }, true)

/-- `SET key v XX`: writes only when the key is present; the returned
Bool is the go-redis `BoolCmd` value (its `Err()` is nil either way). -/
def setXXCmd (s : RedisState) (key : String) (v : Jval) : RedisState × Bool :=
  match kvLookup s.kv key with
  | some _ => ({ s with kv := kvReplace s.kv key v }, true)
  | none => (s, false)

/-- `DEL key`: removes the key, returning the deleted count; never
yields `redis.Nil`. -/
def delCmd (s : RedisState) (key : String) : RedisState × Nat :=
  match kvLookup s.kv key with
  | some _ => ({ s with kv := kvRemove s.kv key }, 1)
  | none => (s, 0)

/-- `SADD orders m`: adds a member to the index set. -/
def sAddCmd (s : RedisState) (m : String) : RedisState × Nat :=
  if m ∈ s.orders then (s, 0) else ({ s with orders := s.orders ++ [m] }, 1)

/-- `SREM orders m`: removes a member from the index set. -/
def sRemCmd (s : RedisState) (m : String) : RedisState × Nat :=
  if m ∈ s.orders then ({ s with orders := setRemove s.orders m }, 1)
  else (s, 0)

/-- `MGET keys`: one `Option` slot per key, `none` for an absent key. -/
def mgetCmd (s : RedisState) (keys : List String) : List (Option Jval) :=
  keys.map (getCmd s)

/-- The repository's error values reachable in the healthy-store model:
`errNotExists` is `ErrNotExits`; `decodeFail` is the wrapped
`json.Unmarshal` failure.  (The `fmt.Errorf` wrappers around transport
failures are unreachable here.) -/
inductive RepoErr where
  | errNotExists
  | decodeFail
deriving DecidableEq, Repr

/-- `OrderIdKey`: the primary key `order:<id>` (decimal). -/
def OrderIdKey (id : Nat) : String :=
  "order:" ++ toString id

/-- `RedisRepo.Insert`, translated command for command.  `json.Marshal`
is total on the model; `txn := r.Client.TxPipeline()` never has a
command queued on it, so `txn.Exec` is the identity with a nil error;
`SetNX` and `SAdd` are issued on `r.Client` and their `Err()` is nil on
a healthy store (the `SetNX` Bool result is never read), so neither
early-return branch fires and the function returns nil. -/
def Insert (s : RedisState) (o : Order) : RedisState × Except RepoErr Unit :=
  let data := encodeOrder o
  let key := OrderIdKey o.OrderID
  let (s1, _created) := setNXCmd s key data
  let (s2, _added) := sAddCmd s1 key
  (s2, Except.ok ())

/-- The sequence of committed store states during `Insert`: the initial
state, the state after the client-issued `SetNX`, the state after the
client-issued `SAdd`, and the state after `txn.Exec` (an empty pipeline,
hence no further change).  Every command issued on `r.Client` commits
immediately, so each of these states is visible in the store. -/
def InsertTrace (s : RedisState) (o : Order) : List RedisState :=
  let data := encodeOrder o
  let key := OrderIdKey o.OrderID
  let (s1, _created) := setNXCmd s key data
  let (s2, _added) := sAddCmd s1 key
  [s, s1, s2, s2]

/-- `RedisRepo.Update`, translated command for command.  `SetXX` is a
`BoolCmd`: on a healthy store its `Err()` is nil whether or not the key
existed (go-redis converts the Nil reply of `SET .. XX` to `false`), so
the `errors.Is(err, redis.Nil)` branch returning `ErrNotExits` is dead
and the function returns nil. -/
def Update (s : RedisState) (o : Order) : RedisState × Except RepoErr Unit :=
  let data := encodeOrder o
  let key := OrderIdKey o.OrderID
  let (s1, _set) := setXXCmd s key data
  (s1, Except.ok ())

/-- `RedisRepo.DeleteByID`, translated command for command.  `Del` never
yields `redis.Nil` (it returns a count of 0 for an absent key with a nil
error), so the `ErrNotExits` branch is dead; `txn` has no queued
command, so `txn.Exec` is the identity with a nil error; `Del` and
`SRem` are issued on `r.Client` and succeed on a healthy store. -/
def DeleteByID (s : RedisState) (id : Nat) : RedisState × Except RepoErr Unit :=
  let key := OrderIdKey id
  let (s1, _n) := delCmd s key
  let (s2, _r) := sRemCmd s1 key
  (s2, Except.ok ())

/-- `RedisRepo.FindByID`, translated command for command: `Get`, then
`redis.Nil` maps to `ErrNotExits`, then `json.Unmarshal`. `Get` does not
mutate the store, so the state is returned unchanged. -/
def FindByID (s : RedisState) (id : Nat) : RedisState × Except RepoErr Order :=
  let key := OrderIdKey id
  match getCmd s key with
  | none => (s, Except.error RepoErr.errNotExists)
  | some v =>
    match decodeOrder v with
    | none => (s, Except.error RepoErr.decodeFail)
    | some o => (s, Except.ok o)

/-- `page` as in the source: `Size` is the SSCAN count hint, `Offset`
the cursor. -/
structure FindAllPage where
  Size : Nat
  Offset : Nat

/-- `FindResults` as in the source. -/
structure FindResults where
  Orders : List Order
  Cursor : Nat
deriving DecidableEq, Repr

/-- The `for i, x := range xs` loop of `FindAll`: each slot is asserted
to a string with `x.(string)` — on a `nil` slot (an absent key in the
`MGET` reply) that type assertion panics, modelled as `none`; a
`json.Unmarshal` failure returns the wrapped error. -/
def decodeLoop : List (Option Jval) → Option (Except RepoErr (List Order))
  | [] => some (Except.ok [])
  | none :: _ => none
  | some v :: rest =>
    match decodeOrder v with
    | none => some (Except.error RepoErr.decodeFail)
    | some o =>
      match decodeLoop rest with
      | none => none
      | some (Except.error e) => some (Except.error e)
      | some (Except.ok os) => some (Except.ok (o :: os))

/-- `RedisRepo.FindAll`, translated command for command, parameterized
by the store's SSCAN behavior `scan : cursor → count → (members, next
cursor)` (scan order and batching are store-defined).  When the scan
step returns zero keys the source returns `FindResults{Orders: ...}`
with the `Cursor` field left at its zero value; otherwise it resolves
the keys with `MGet`, decodes each value, and returns the decoded
orders with the scan's next cursor.  The outer `none` models a Go
runtime panic (the `x.(string)` assertion on a nil `MGET` slot). -/
def FindAll (scan : Nat → Nat → List String × Nat) (s : RedisState)
    (page : FindAllPage) : Option (Except RepoErr FindResults) :=
  let (keys, cursor) := scan page.Offset page.Size
  if keys = [] then
    some (Except.ok { Orders := [], Cursor := 0 })
  else
    match decodeLoop (mgetCmd s keys) with
    | none => none
    | some (Except.error e) => some (Except.error e)
    | some (Except.ok orders) =>
      some (Except.ok { Orders := orders, Cursor := cursor })

/-- Whether following the SSCAN cursor chain from `c` reaches cursor 0
within `fuel` steps. -/
def scanTerminates (scan : Nat → Nat → List String × Nat) (size : Nat) :
    Nat → Nat → Bool
  | 0, _ => false
  | fuel + 1, c =>
    let (_, c2) := scan c size
    if c2 = 0 then true else scanTerminates scan size fuel c2

/-- All members yielded by following the SSCAN cursor chain from `c`
until cursor 0, within `fuel` steps: the store-side contents of a full
scan. -/
def scanKeys (scan : Nat → Nat → List String × Nat) (size : Nat) :
    Nat → Nat → List String
  | 0, _ => []
  | fuel + 1, c =>
    let (ks, c2) := scan c size
    ks ++ (if c2 = 0 then [] else scanKeys scan size fuel c2)

/-- The caller-side pagination loop of the spec: starting from a cursor,
repeatedly call `FindAll` with each returned cursor until a call
returns cursor 0, concatenating the returned orders.  `none` is
propagated panic or fuel exhaustion. -/
def collectAll (scan : Nat → Nat → List String × Nat) (s : RedisState)
    (size : Nat) : Nat → Nat → Option (Except RepoErr (List Order))
  | 0, _ => none
  | fuel + 1, c =>
    match FindAll scan s { Size := size, Offset := c } with
    | none => none
    | some (Except.error e) => some (Except.error e)
    | some (Except.ok res) =>
      if res.Cursor = 0 then some (Except.ok res.Orders)
      else
        match collectAll scan s size fuel res.Cursor with
        | none => none
        | some (Except.error e) => some (Except.error e)
        | some (Except.ok more) => some (Except.ok (res.Orders ++ more))

/-- Resolve a member key to its decoded Order: the value at the primary
key, decoded; `none` if the record is absent or corrupt. -/
def lookupDecode (s : RedisState) (k : String) : Option Order :=
  match getCmd s k with
  | none => none
  | some v => decodeOrder v

/-- Resolve a whole key batch, failing if any key fails. -/
def lookupDecodeAll (s : RedisState) : List String → Option (List Order)
  | [] => some []
  | k :: ks =>
    match lookupDecode s k, lookupDecodeAll s ks with
    | some o, some os => some (o :: os)
    | _, _ => none

/-- Invariant I1 of the spec: every member of the `orders` index set has
a primary record holding a valid serialized Order. -/
def I1 (s : RedisState) : Prop :=
  ∀ k, k ∈ s.orders → ∃ v, getCmd s k = some v ∧ (decodeOrder v).isSome = true

/-- A concrete stored order with `OrderID` 1. -/
def oExisting : Order := ⟨1, "cust-a", [⟨"A", 2⟩], some "t0"⟩

/-- A second order carrying the same `OrderID` 1 but different content. -/
def oColliding : Order := ⟨1, "cust-b", [⟨"B", 7⟩], some "t1"⟩

/-- A store holding `oExisting` at its primary key, indexed. -/
def stateOne : RedisState := ⟨[("order:1", encodeOrder oExisting)], ["order:1"]⟩

/-- A store whose index set holds `order:1` but whose keyspace does not
(a dangling index entry). -/
def stateDangling : RedisState := ⟨[], ["order:1"]⟩

/-- A store holding garbage (JSON null, not a valid serialized Order) at
`order:1`, with an empty index set. -/
def stateGarbage : RedisState := ⟨[("order:1", Jval.null)], []⟩

/-- An SSCAN behavior that yields the single member `order:1` at cursor 0
and completes. -/
def scanSingle : Nat → Nat → List String × Nat :=
  fun c _ => if c = 0 then (["order:1"], 0) else ([], 0)

/-- An SSCAN behavior of a sparse set: the step at cursor 0 yields zero
members with next cursor 5, and the step at cursor 5 yields the single
member `order:1` and completes. -/
def scanSparse : Nat → Nat → List String × Nat :=
  fun c _ => if c = 0 then ([], 5) else if c = 5 then (["order:1"], 0) else ([], 0)

/-- Claim C1: the claim says Insert on an existing `OrderID` fails with
`AlreadyExists` and leaves the stored value unchanged.  The code leaves
the value unchanged but returns success: `SetNX`'s Bool result is never
read and its `Err()` is nil when the key exists, and no `AlreadyExists`
error value exists anywhere in the repository.  At the failing input —
a store already holding an order with ID 1 — Insert of a colliding
order returns `ok`, with the stored value unchanged. -/
theorem C1_insert_on_existing_key_returns_ok :
    getCmd stateOne (OrderIdKey 1) = some (encodeOrder oExisting) ∧
    (Insert stateOne oColliding).2 = Except.ok () ∧
    getCmd (Insert stateOne oColliding).1 (OrderIdKey 1) =
      some (encodeOrder oExisting) :=
  ⟨rfl, rfl, rfl⟩

/-- Claim C2: the claim says Update on an absent `OrderID` fails with
`NotFound` and mutates nothing.  The code mutates nothing but returns
success: go-redis converts the Nil reply of `SET .. XX` to `(false,
nil)`, so the `errors.Is(err, redis.Nil)` branch returning `ErrNotExits`
is dead.  At the failing input — the empty store — Update returns `ok`
and the store is unchanged. -/
theorem C2_update_on_absent_key_returns_ok :
    getCmd emptyState (OrderIdKey 1) = none ∧
    Update emptyState oColliding = (emptyState, Except.ok ()) :=
  ⟨rfl, rfl⟩

/-- Claim C3: the claim says DeleteByID on an absent primary key fails
with `NotFound` and changes neither the keyspace nor the index set.
The code returns success (`Del` never yields `redis.Nil`, so the
`ErrNotExits` branch is dead) and, when the index set holds a dangling
member for that key, `SRem` removes it — so the index set changes.  At
the failing input — primary key absent, `order:1` dangling in the index
set — DeleteByID returns `ok` and empties the index set. -/
theorem C3_delete_on_absent_key_returns_ok :
    getCmd stateDangling (OrderIdKey 1) = none ∧
    stateDangling.orders = ["order:1"] ∧
    DeleteByID stateDangling 1 = (emptyState, Except.ok ()) :=
  ⟨rfl, rfl, rfl⟩

/-- Claim C4: the claim says the pagination loop (repeat FindAll with
each returned cursor until cursor 0) yields every currently-present
order, and that an empty scan step mid-scan must not terminate the loop
early.  The code's empty-keys branch returns `FindResults` with the
`Cursor` field left at its zero value, discarding the scan's next
cursor.  At the failing input — a store holding the single valid,
indexed order `oExisting`, with a sparse-set SSCAN behavior whose full
cursor chain terminates and yields exactly that one member, but whose
first step yields zero members — the loop ends after the first call and
yields no orders at all. -/
theorem C4_empty_scan_step_ends_loop_early :
    scanTerminates scanSparse 1 2 0 = true ∧
    scanKeys scanSparse 1 2 0 = ["order:1"] ∧
    stateOne.orders = ["order:1"] ∧
    lookupDecode stateOne "order:1" = some oExisting ∧
    collectAll scanSparse stateOne 1 10 0 = some (Except.ok []) :=
  ⟨rfl, rfl, rfl, rfl, rfl⟩

/-- Claim C5: the claim says FindAll surfaces `CorruptRecord` when an
indexed key has no primary record, neither skipping it nor crashing.
The code's `x.(string)` type assertion panics on the nil `MGET` slot of
the missing record (modelled as the `none` outcome).  At the failing
input — index set holding `order:1`, keyspace empty — FindAll crashes
instead of returning an error value. -/
theorem C5_missing_record_crashes_findAll :
    "order:1" ∈ stateDangling.orders ∧
    getCmd stateDangling "order:1" = none ∧
    FindAll scanSingle stateDangling ⟨1, 0⟩ = none :=
  ⟨by decide, rfl, rfl⟩

/-- Claim C6: the claim says every successful Insert/Update/DeleteByID
preserves invariant I1 (every indexed key has a valid primary record).
Because Insert ignores `SetNX`'s no-op-on-existing signal, inserting an
order whose key already holds an invalid value adds the key to the
index set while leaving the garbage value in place.  At the failing
input — a store satisfying I1 whose keyspace holds JSON null at
`order:1`, not indexed — Insert succeeds and I1 no longer holds. -/
theorem C6_insert_can_break_I1 :
    I1 stateGarbage ∧
    (Insert stateGarbage oColliding).2 = Except.ok () ∧
    ¬ I1 (Insert stateGarbage oColliding).1 := by
  refine ⟨?_, rfl, ?_⟩
  · intro k hk
    exact absurd hk (by simp [stateGarbage])
  · intro h
    have hst : (Insert stateGarbage oColliding).1 =
        ⟨[("order:1", Jval.null)], ["order:1"]⟩ := rfl
    rw [hst] at h
    obtain ⟨v, hv, hd⟩ := h "order:1" (by simp)
    have hvnull : Jval.null = v := by
      have : some Jval.null = some v := by
        calc some Jval.null
            = getCmd ⟨[("order:1", Jval.null)], ["order:1"]⟩ "order:1" := rfl
          _ = some v := hv
      exact Option.some.inj this
    rw [← hvnull] at hd
    exact absurd hd (by decide)

/-- The store state committed between Insert's `SetNX` and its `SAdd`
when inserting `oExisting` into the empty store: the primary record is
present, the index set is not yet updated. -/
def stateMid : RedisState := ⟨[("order:1", encodeOrder oExisting)], []⟩

/-- The store state after Insert of `oExisting` into the empty store. -/
def stateFin : RedisState := ⟨[("order:1", encodeOrder oExisting)], ["order:1"]⟩

/-- Claim C7: the claim says Insert's primary-key and index-set
mutations are batched into the single `txn.Exec` commit, with no
committed state holding only one of the two.  In the source every
command is issued on `r.Client` (not on `txn`), so each commits
immediately and `txn.Exec` commits an empty pipeline.  At the failing
input — Insert of `oExisting` into the empty store — the trace of
committed states contains `stateMid`, a state distinct from both the
initial and the final one in which the primary record has been written
but the key is not yet in the index set. -/
theorem C7_insert_commits_intermediate_state :
    InsertTrace emptyState oExisting = [emptyState, stateMid, stateFin, stateFin] ∧
    getCmd stateMid (OrderIdKey 1) = some (encodeOrder oExisting) ∧
    OrderIdKey 1 ∉ stateMid.orders ∧
    OrderIdKey 1 ∈ stateFin.orders ∧
    stateMid.kv.length ≠ emptyState.kv.length ∧
    stateMid.orders ≠ stateFin.orders := by
  refine ⟨rfl, rfl, by decide, by decide, by decide, by decide⟩

/-- Decoding the encoding of a line item recovers it. -/
theorem decodeLineItem_encodeLineItem (li : LineItem) :
    decodeLineItem (encodeLineItem li) = some li := by
  cases li
  rfl

/-- Decoding the encodings of a list of line items recovers the list. -/
theorem decodeLineItems_encode (ls : List LineItem) :
    decodeLineItems (ls.map encodeLineItem) = some ls := by
  induction ls with
  | nil => rfl
  | cons a l ih =>
    simp [List.map, decodeLineItems, decodeLineItem_encodeLineItem, ih]

/-- Decoding the encoding of the nullable timestamp recovers it. -/
theorem decodeCreatedAt_encodeCreatedAt (t : Option String) :
    decodeCreatedAt (encodeCreatedAt t) = some t := by
  cases t <;> rfl

/-- Claim C8: round-trip law of the codec — decoding the encoding of
any valid Order yields that Order back. -/
theorem C8_decode_encode_round_trip (o : Order) :
    decodeOrder (encodeOrder o) = some o := by
  obtain ⟨id, c, ls, ca⟩ := o
  simp [encodeOrder, decodeOrder, decodeLineItems_encode,
    decodeCreatedAt_encodeCreatedAt]

/-- `FindByID` on an absent primary key: `ErrNotExits`, state unchanged. -/
theorem FindByID_eq_notExists (s : RedisState) (id : Nat)
    (h : getCmd s (OrderIdKey id) = none) :
    FindByID s id = (s, Except.error RepoErr.errNotExists) := by
  simp [FindByID, h]

/-- `FindByID` on a present but undecodable record: the wrapped decode
error, state unchanged. -/
theorem FindByID_eq_corrupt (s : RedisState) (id : Nat) (v : Jval)
    (h1 : getCmd s (OrderIdKey id) = some v) (h2 : decodeOrder v = none) :
    FindByID s id = (s, Except.error RepoErr.decodeFail) := by
  simp [FindByID, h1, h2]

/-- `FindByID` on a present, valid record: the decoded Order, state
unchanged. -/
theorem FindByID_eq_ok (s : RedisState) (id : Nat) (v : Jval) (o : Order)
    (h1 : getCmd s (OrderIdKey id) = some v) (h2 : decodeOrder v = some o) :
    FindByID s id = (s, Except.ok o) := by
  simp [FindByID, h1, h2]

/-- Claim C9: FindByID returns the store state unchanged in every case;
it fails with `ErrNotExits` exactly when the primary key `order:<id>`
is absent; and when the key holds a valid serialized Order it returns
that decoded Order. -/
theorem C9_findByID_characterization (s : RedisState) (id : Nat) :
    (FindByID s id).1 = s ∧
    ((FindByID s id).2 = Except.error RepoErr.errNotExists ↔
      getCmd s (OrderIdKey id) = none) ∧
    (∀ v o, getCmd s (OrderIdKey id) = some v → decodeOrder v = some o →
      (FindByID s id).2 = Except.ok o) := by
  refine ⟨?_, ?_, ?_⟩
  · cases hg : getCmd s (OrderIdKey id) with
    | none => rw [FindByID_eq_notExists s id hg]
    | some v =>
      cases hd : decodeOrder v with
      | none => rw [FindByID_eq_corrupt s id v hg hd]
      | some o => rw [FindByID_eq_ok s id v o hg hd]
  · cases hg : getCmd s (OrderIdKey id) with
    | none => rw [FindByID_eq_notExists s id hg]; simp
    | some v =>
      cases hd : decodeOrder v with
      | none => rw [FindByID_eq_corrupt s id v hg hd]; simp [hg]
      | some o => rw [FindByID_eq_ok s id v o hg hd]; simp [hg]
  · intro v o hv ho
    rw [FindByID_eq_ok s id v o hv ho]

/-- Witness for C9 at a concrete input: in `stateOne`, FindByID 1
returns the stored order. -/
theorem C9_findByID_witness :
    (FindByID stateOne 1).2 = Except.ok oExisting :=
  (C9_findByID_characterization stateOne 1).2.2
    (encodeOrder oExisting) oExisting rfl rfl

/-- When every key of a batch resolves and decodes, the `MGET`-and-decode
loop of FindAll succeeds with exactly those orders. -/
theorem decodeLoop_of_lookupDecodeAll (s : RedisState) :
    ∀ keys orders, lookupDecodeAll s keys = some orders →
      decodeLoop (mgetCmd s keys) = some (Except.ok orders) := by
  intro keys
  induction keys with
  | nil =>
    intro orders h
    simp only [lookupDecodeAll] at h
    rw [← Option.some.inj h]
    rfl
  | cons k ks ih =>
    intro orders h
    simp only [lookupDecodeAll] at h
    cases hk : lookupDecode s k with
    | none => rw [hk] at h; exact absurd h (by simp)
    | some o =>
      cases hks : lookupDecodeAll s ks with
      | none => rw [hk, hks] at h; exact absurd h (by simp)
      | some os =>
        rw [hk, hks] at h
        have hkg : ∃ v, getCmd s k = some v ∧ decodeOrder v = some o := by
          revert hk
          simp only [lookupDecode]
          cases hg : getCmd s k with
          | none => intro hk; exact absurd hk (by simp)
          | some v => intro hk; exact ⟨v, rfl, hk⟩
        obtain ⟨v, hg, hd⟩ := hkg
        have hm : mgetCmd s (k :: ks) = getCmd s k :: mgetCmd s ks := rfl
        rw [hm, hg]
        simp only [decodeLoop, hd, ih os hks]
        rw [← Option.some.inj h]

/-- When every key of a batch resolves and decodes, the result has one
order per key. -/
theorem lookupDecodeAll_length (s : RedisState) :
    ∀ keys orders, lookupDecodeAll s keys = some orders →
      orders.length = keys.length := by
  intro keys
  induction keys with
  | nil =>
    intro orders h
    simp only [lookupDecodeAll] at h
    obtain rfl := Option.some.inj h
    rfl
  | cons k ks ih =>
    intro orders h
    simp only [lookupDecodeAll] at h
    cases hk : lookupDecode s k with
    | none => rw [hk] at h; exact absurd h (by simp)
    | some o =>
      cases hks : lookupDecodeAll s ks with
      | none => rw [hk, hks] at h; exact absurd h (by simp)
      | some os =>
        rw [hk, hks] at h
        obtain rfl := Option.some.inj h
        simp [ih os hks]

/-- When every key of a batch resolves and decodes, the i-th order is
the decode of the value stored at the i-th key. -/
theorem lookupDecodeAll_get (s : RedisState) :
    ∀ keys orders, lookupDecodeAll s keys = some orders →
      ∀ i (hik : i < keys.length) (hio : i < orders.length),
        lookupDecode s (keys.get ⟨i, hik⟩) = some (orders.get ⟨i, hio⟩) := by
  intro keys
  induction keys with
  | nil =>
    intro orders h i hik hio
    exact absurd hik (by simp)
  | cons k ks ih =>
    intro orders h i hik hio
    simp only [lookupDecodeAll] at h
    cases hk : lookupDecode s k with
    | none => rw [hk] at h; exact absurd h (by simp)
    | some o =>
      cases hks : lookupDecodeAll s ks with
      | none => rw [hk, hks] at h; exact absurd h (by simp)
      | some os =>
        rw [hk, hks] at h
        obtain rfl := Option.some.inj h
        cases i with
        | zero => exact hk
        | succ j =>
          have hjk : j < ks.length := Nat.lt_of_succ_lt_succ hik
          have hjo : j < os.length := Nat.lt_of_succ_lt_succ hio
          exact ih os hks j hjk hjo

/-- Claim C10: when the scan step returns a non-empty key batch and
every key's record is present and decodes, FindAll returns exactly one
order per scanned key in scan order — the i-th order decoded from the
value at the i-th key — together with the scan's next cursor. -/
theorem C10_findAll_nonempty_success (scan : Nat → Nat → List String × Nat)
    (s : RedisState) (page : FindAllPage) (keys : List String) (c : Nat)
    (orders : List Order)
    (hscan : scan page.Offset page.Size = (keys, c))
    (hne : keys ≠ [])
    (hall : lookupDecodeAll s keys = some orders) :
    FindAll scan s page = some (Except.ok { Orders := orders, Cursor := c }) ∧
    orders.length = keys.length ∧
    ∀ i (hik : i < keys.length) (hio : i < orders.length),
      lookupDecode s (keys.get ⟨i, hik⟩) = some (orders.get ⟨i, hio⟩) := by
  refine ⟨?_, lookupDecodeAll_length s keys orders hall,
    lookupDecodeAll_get s keys orders hall⟩
  simp only [FindAll, hscan]
  rw [if_neg hne, decodeLoop_of_lookupDecodeAll s keys orders hall]

/-- Witness for C10 at a concrete input: scanning `stateOne` with a
single-step scan behavior yields the stored order and cursor 0. -/
theorem C10_findAll_witness :
    FindAll scanSingle stateOne ⟨1, 0⟩ =
      some (Except.ok { Orders := [oExisting], Cursor := 0 }) :=
  (C10_findAll_nonempty_success scanSingle stateOne ⟨1, 0⟩ ["order:1"] 0
    [oExisting] rfl (by simp) rfl).1

end ChiApi
